import Mathlib

/-!
# VideoShare client (`src/App.js`): session, feed and upload controllers

A shallow embedding of the React component `App` and of the `UploadModal`
component.  Every `useState` cell becomes a field of a record, the two keys of
`window.localStorage` that the program uses become a record of their own, and
every handler becomes a function from the state before to the state after.
The outcome of a network request is an argument of the handler that awaits it.
-/

namespace VideoApp

/-! ## Data -/

/-- A video object of a feed response, with the fields the client reads.
A field the server left out reads `undefined`, here `none`. -/
structure Video where
  id : String
  title : String
  creatorUsername : Option String
  username : Option String
  deriving DecidableEq, Repr

/-- The object held in the `user` cell.  The empty object `{}` is
`⟨none, none⟩`. -/
structure UserProfile where
  username : Option String
  role : Option String
  deriving DecidableEq, Repr

/-- The two keys of `localStorage` used by the program. -/
inductive StorageKey where
  | token
  | user
  deriving DecidableEq, Repr

/-- The part of `window.localStorage` the program reads and writes: the text
stored under each of the two keys, `none` when the key is not present. -/
structure LocalStorage where
  token : Option String
  user : Option String
  deriving DecidableEq, Repr

namespace LocalStorage

/-- A storage that holds neither key. -/
def empty : LocalStorage := ⟨none, none⟩

/-- `localStorage.getItem(key)`; `none` is the `null` of a missing key. -/
def getItem (st : LocalStorage) : StorageKey → Option String
  | .token => st.token
  | .user => st.user

/-- `localStorage.setItem(key, value)`. -/
def setItem (st : LocalStorage) : StorageKey → String → LocalStorage
  | .token, v => { st with token := some v }
  | .user, v => { st with user := some v }

/-- `localStorage.removeItem(key)`. -/
def removeItem (st : LocalStorage) : StorageKey → LocalStorage
  | .token => { st with token := none }
  | .user => { st with user := none }

end LocalStorage

/-- What `JSON.parse` gives on a stored text, as far as the program looks at
it: it throws, or it returns a value, which is falsy (`none`) or is read as a
profile object. -/
inductive Parsed where
  | parseError
  | value (v : Option UserProfile)
  deriving DecidableEq, Repr

/-- The two functions of the platform's `JSON` object that the program calls
on a user profile.  They are arguments of the model. -/
structure JsonCodec where
  parse : String → Parsed
  stringify : UserProfile → String

/-- The outcome of `fetch(...)` followed by `res.json()`: a parsed body, or a
rejection of one of the two promises, which lands in the `catch` handler. -/
inductive Fetched (α : Type) where
  | json (data : α)
  | networkError
  | badBody
  deriving DecidableEq, Repr

/-- Body of a response of the two list endpoints.  `success` is the
truthiness of `data.success`. -/
structure VideosResponse where
  success : Bool
  videos : List Video
  deriving DecidableEq, Repr

/-- Body of a login or signup response, and the shape of what `login` and
`signup` return.  A field that is not there is `none`. -/
structure AuthResponse where
  success : Bool
  message : Option String
  token : Option String
  user : Option UserProfile
  deriving DecidableEq, Repr

/-- The values of `currentView`. -/
inductive View where
  | feed
  | myVideos
  deriving DecidableEq, Repr

/-- The state cells of `App` (lines 7-16) together with the storage. -/
structure AppState where
  videos : List Video
  userVideos : List Video
  loading : Bool
  user : Option UserProfile
  showLogin : Bool
  showSignup : Bool
  showUpload : Bool
  currentVideoIndex : Int
  isPlaying : Bool
  currentView : View
  storage : LocalStorage
  deriving DecidableEq, Repr

/-- The state at mount: the `useState` defaults over a given storage. -/
def App.init (storage : LocalStorage) : AppState where
  videos := []
  userVideos := []
  loading := true
  user := none
  showLogin := false
  showSignup := false
  showUpload := false
  currentVideoIndex := 0
  isPlaying := true
  currentView := .feed
  storage := storage

/-! ## Handlers of `App` -/

/-- `fetchVideos` (lines 53-65) once its request has settled. -/
def fetchVideos (outcome : Fetched VideosResponse) (s : AppState) : AppState :=
  match outcome with
  | .json data =>
    if data.success then { s with videos := data.videos, loading := false }
    else { s with loading := false }
  | .networkError => { s with loading := false }
  | .badBody => { s with loading := false }

/-- The test of the `filter` in `fetchUserVideos` (line 77).  `===` on two
fields that are both `undefined` is true, as is `none = none`. -/
def isOwnVideo (user : UserProfile) (video : Video) : Bool :=
  decide (video.creatorUsername = user.username) || decide (video.username = user.username)

/-- `fetchUserVideos` (lines 67-83) once its request has settled. -/
def fetchUserVideos (outcome : Fetched VideosResponse) (s : AppState) : AppState :=
  match s.user with
  | none => s
  | some user =>
    match outcome with
    | .json data =>
      if data.success then { s with userVideos := data.videos.filter (isOwnVideo user) }
      else s
    | .networkError => s
    | .badBody => s

/-- The text `setItem` stores for `data.token`: the token, or the text
`undefined` when the field is not there. -/
def tokenText (token : Option String) : String :=
  token.getD "undefined"

/-- The text `setItem` stores for `JSON.stringify(data.user)`. -/
def userText (J : JsonCodec) (user : Option UserProfile) : String :=
  match user with
  | some u => J.stringify u
  | none => "undefined"

/-- `login` (lines 85-106): the state after, and the returned result. -/
def login (J : JsonCodec) (outcome : Fetched AuthResponse) (s : AppState) :
    AppState × AuthResponse :=
  match outcome with
  | .json data =>
    if data.success then
      ({ s with
          user := data.user
          storage := (s.storage.setItem .token (tokenText data.token)).setItem .user
            (userText J data.user)
          showLogin := false }, data)
    else (s, data)
  | .networkError => (s, ⟨false, some "Login failed", none, none⟩)
  | .badBody => (s, ⟨false, some "Login failed", none, none⟩)

/-- `signup` (lines 108-129): the state after, and the returned result. -/
def signup (J : JsonCodec) (outcome : Fetched AuthResponse) (s : AppState) :
    AppState × AuthResponse :=
  match outcome with
  | .json data =>
    if data.success then
      ({ s with
          user := data.user
          storage := (s.storage.setItem .token (tokenText data.token)).setItem .user
            (userText J data.user)
          showSignup := false }, data)
    else (s, data)
  | .networkError => (s, ⟨false, some "Signup failed", none, none⟩)
  | .badBody => (s, ⟨false, some "Signup failed", none, none⟩)

/-- `logout` (lines 131-136). -/
def logout (s : AppState) : AppState :=
  { s with
    user := none
    storage := (s.storage.removeItem .token).removeItem .user
    currentVideoIndex := 0 }

/-- `handleKeyPress` (lines 163-172), the `keydown` listener on `window`.
The effect that installs it runs on every render of `App`, before the
`if (!user)` return, so the listener is there with or without a user. -/
def handleKeyPress (key : String) (s : AppState) : AppState :=
  if key = "ArrowUp" ∧ s.currentVideoIndex > 0 then
    { s with currentVideoIndex := s.currentVideoIndex - 1 }
  else if key = "ArrowDown" ∧ s.currentVideoIndex < (s.videos.length : Int) - 1 then
    { s with currentVideoIndex := s.currentVideoIndex + 1 }
  else if key = " " then
    { s with isPlaying := !s.isPlaying }
  else s

/-- The `onClick` of the navigation dot at position `index` (line 300). -/
def navDotClick (index : Nat) (s : AppState) : AppState :=
  { s with currentVideoIndex := (index : Int) }

/-- The `onPlayToggle` handed to every card (line 287), which is the `onClick`
of the card's video wrapper (line 361). -/
def onPlayToggle (s : AppState) : AppState :=
  { s with isPlaying := !s.isPlaying }

/-- The guard of line 179: the authentication screen is what is rendered. -/
def authScreenShown (s : AppState) : Bool :=
  s.user.isNone

/-- The positions whose navigation dot is rendered (lines 294-303): all
positions of a non-empty feed, in the logged-in feed view only. -/
def navDots (s : AppState) : List Nat :=
  if s.user.isSome ∧ s.currentView = .feed ∧ s.videos.length > 0 then
    List.range s.videos.length
  else []

/-- Whether the video cards are rendered (lines 261-291). -/
def cardsRendered (s : AppState) : Bool :=
  s.user.isSome && decide (s.currentView = .feed) && !s.loading && decide (s.videos.length ≠ 0)

/-- The text handed to `JSON.parse` on line 30: the stored text, or the text
of the empty object when the stored one is missing or empty. -/
def parseStoredUser (J : JsonCodec) (stored : Option String) : Parsed :=
  match stored with
  | none => .value (some ⟨none, none⟩)
  | some text => if text = "" then .value (some ⟨none, none⟩) else J.parse text

/-- Both `removeItem` calls of lines 33-34 and 38-39. -/
def clearSession (s : AppState) : AppState :=
  { s with storage := (s.storage.removeItem .token).removeItem .user }

/-- The session part of the mount effect (lines 20-41) once the verification
request has settled.  No request is made when the stored token is missing or
empty.  An exception of `JSON.parse` inside `then` lands in `catch`. -/
def restoreSession (J : JsonCodec) (verify : Fetched VideosResponse) (s : AppState) :
    AppState :=
  match s.storage.getItem .token with
  | none => s
  | some savedToken =>
    if savedToken = "" then s
    else
      match verify with
      | .json data =>
        if data.success then
          match parseStoredUser J (s.storage.getItem .user) with
          | .value userData => { s with user := userData }
          | .parseError => clearSession s
        else clearSession s
      | .networkError => clearSession s
      | .badBody => clearSession s

/-- The mount effect (lines 18-44) from the initial state: session restore
and the first `fetchVideos`, which write disjoint cells. -/
def mount (J : JsonCodec) (storage : LocalStorage) (verify feed : Fetched VideosResponse) :
    AppState :=
  fetchVideos feed (restoreSession J verify (App.init storage))

/-! ## Traces of `App` -/

/-- What can happen to a mounted `App`. -/
inductive Event where
  | fetchVideos (outcome : Fetched VideosResponse)
  | fetchUserVideos (outcome : Fetched VideosResponse)
  | keydown (key : String)
  | navDot (index : Nat)
  | wrapperClick
  | login (outcome : Fetched AuthResponse)
  | signup (outcome : Fetched AuthResponse)
  | logout
  | setCurrentView (view : View)
  deriving DecidableEq, Repr

/-- One event.  A click or a form needs its target on screen: a dot or a card
that is not rendered cannot be clicked, the two authentication dialogs exist
on the authentication screen only, the logout button and the view tabs in the
logged-in view only; an event without its target changes nothing. -/
def step (J : JsonCodec) (s : AppState) : Event → AppState
  | .fetchVideos outcome => fetchVideos outcome s
  | .fetchUserVideos outcome => fetchUserVideos outcome s
  | .keydown key => handleKeyPress key s
  | .navDot index => if index ∈ navDots s then navDotClick index s else s
  | .wrapperClick => if cardsRendered s then onPlayToggle s else s
  | .login outcome => if authScreenShown s then (login J outcome s).1 else s
  | .signup outcome => if authScreenShown s then (signup J outcome s).1 else s
  | .logout => if authScreenShown s then s else logout s
  | .setCurrentView view => if authScreenShown s then s else { s with currentView := view }

/-- A sequence of events, oldest first. -/
def run (J : JsonCodec) (s : AppState) : List Event → AppState
  | [] => s
  | e :: es => run J (step J s e) es

/-- The initial feed state named by the specification. -/
def IsInitial (s : AppState) : Prop :=
  s.videos = [] ∧ s.currentVideoIndex = 0 ∧ s.isPlaying = true

/-- The index invariant of the feed. -/
def IndexInRange (s : AppState) : Prop :=
  s.videos ≠ [] → 0 ≤ s.currentVideoIndex ∧ s.currentVideoIndex < (s.videos.length : Int)

/-! ## `UploadModal` -/

/-- A `File` of the browser, with the properties the program reads. -/
structure FileBlob where
  name : String
  type : String
  size : Nat
  deriving DecidableEq, Repr

/-- The `FormData` built by `handleSubmit` (lines 613-617). -/
structure FormData where
  video : FileBlob
  title : String
  description : String
  genre : String
  deriving DecidableEq, Repr

/-- What `onUpload` resolves to: the body of the upload response, or the
result `uploadVideo` makes up in its `catch`. -/
structure UploadResult where
  success : Bool
  message : Option String
  deriving DecidableEq, Repr

/-- The state cells of `UploadModal` (lines 541-548).  `error` is `none` when
it was set to an `undefined` message. -/
structure UploadModal where
  title : String
  description : String
  file : Option FileBlob
  loading : Bool
  error : Option String
  dragActive : Bool
  preview : Option String
  uploadProgress : ℚ
  deriving DecidableEq, Repr

/-- `String.prototype.startsWith`. -/
def startsWith (text start : String) : Bool :=
  start.toList.isPrefixOf text.toList

/-- The code points `String.prototype.trim` strips: the white space and line
terminator characters of ECMAScript. -/
def isTrimSpace (c : Char) : Bool :=
  let n := c.toNat
  n == 0x09 || n == 0x0A || n == 0x0B || n == 0x0C || n == 0x0D || n == 0x20 ||
  n == 0xA0 || n == 0x1680 || (0x2000 ≤ n && n ≤ 0x200A) || n == 0x2028 || n == 0x2029 ||
  n == 0x202F || n == 0x205F || n == 0x3000 || n == 0xFEFF

/-- `String.prototype.trim`. -/
def trim (text : String) : String :=
  String.mk ((text.toList.dropWhile isTrimSpace).reverse.dropWhile isTrimSpace).reverse

/-- The title made from a file name on lines 583-584: the part before the
first dot, with every underscore and hyphen turned into a space. -/
def autoTitle (name : String) : String :=
  String.mk ((name.toList.takeWhile (fun c => c != '.')).map
    (fun c => if c == '_' || c == '-' then ' ' else c))

namespace UploadModal

/-- The `useState` defaults of the modal. -/
def init : UploadModal where
  title := ""
  description := ""
  file := none
  loading := false
  error := some ""
  dragActive := false
  preview := none
  uploadProgress := 0

/-- `handleFile` (lines 572-589).  `url` is what `URL.createObjectURL` gives
for the file. -/
def handleFile (selectedFile : Option FileBlob) (url : String) (m : UploadModal) :
    UploadModal :=
  match selectedFile with
  | some f =>
    if startsWith f.type "video/" then
      { m with
        file := some f
        error := some ""
        preview := some url
        title := if m.title = "" then autoTitle f.name else m.title }
    else { m with error := some "Please select a valid video file" }
  | none => { m with error := some "Please select a valid video file" }

/-- `handleDrag` (lines 551-559). -/
def handleDrag (eventType : String) (m : UploadModal) : UploadModal :=
  if eventType = "dragenter" ∨ eventType = "dragover" then { m with dragActive := true }
  else if eventType = "dragleave" then { m with dragActive := false }
  else m

/-- `handleDrop` (lines 561-570) on the dropped files. -/
def handleDrop (files : List FileBlob) (url : String) (m : UploadModal) : UploadModal :=
  match files with
  | f :: _ => handleFile (some f) url { m with dragActive := false }
  | [] => { m with dragActive := false }

/-- `handleFileChange` (lines 591-595) on the chosen files. -/
def handleFileChange (files : List FileBlob) (url : String) (m : UploadModal) : UploadModal :=
  match files with
  | f :: _ => handleFile (some f) url m
  | [] => m

/-- `removeFile` (lines 646-655). -/
def removeFile (m : UploadModal) : UploadModal :=
  { m with file := none, preview := none }

/-- `handleSubmit` (lines 597-630) up to its `await`: the state after, and the
payloads handed to `onUpload`, each of which is one upload request. -/
def handleSubmit (m : UploadModal) : UploadModal × List FormData :=
  match m.file with
  | none => ({ m with error := some "Please select a video file" }, [])
  | some file =>
    if trim m.title = "" then ({ m with error := some "Please enter a title" }, [])
    else
      ({ m with loading := true, error := some "", uploadProgress := 0 },
        [{ video := file, title := trim m.title, description := trim m.description,
           genre := "entertainment" }])

/-- The updater of the progress timer (lines 621-627); `random` is the value
of `Math.random()`. -/
def progressTick (random : ℚ) (prev : ℚ) : ℚ :=
  if prev ≥ 90 then 90 else prev + random * 20

/-- The progress after the timer has fired with the given random values,
oldest first.  The branch that answers 90 clears the timer, so the values
after it are never drawn. -/
def progressAfter : List ℚ → ℚ → ℚ
  | [], prev => prev
  | random :: rest, prev =>
    if prev ≥ 90 then 90 else progressAfter rest (prev + random * 20)

/-- The rest of `handleSubmit` (lines 631-643), after `onUpload` resolved. -/
def handleSubmitSettled (result : UploadResult) (m : UploadModal) : UploadModal :=
  if result.success then { m with uploadProgress := 100, loading := false }
  else { m with error := result.message, uploadProgress := 0, loading := false }

end UploadModal

/-- What can happen to an open upload dialog. -/
inductive UploadEvent where
  | setTitle (value : String)
  | setDescription (value : String)
  | drag (eventType : String)
  | drop (files : List FileBlob) (url : String)
  | fileChange (files : List FileBlob) (url : String)
  | removeFile
  | submit
  | tick (random : ℚ)
  | settled (result : UploadResult)
  deriving DecidableEq, Repr

/-- One event of the dialog: the state after and the upload requests issued.
The timer fires and the request settles only while a submission is under
way. -/
def UploadModal.step (m : UploadModal) : UploadEvent → UploadModal × List FormData
  | .setTitle value => ({ m with title := value }, [])
  | .setDescription value => ({ m with description := value }, [])
  | .drag eventType => (m.handleDrag eventType, [])
  | .drop files url => (m.handleDrop files url, [])
  | .fileChange files url => (m.handleFileChange files url, [])
  | .removeFile => (m.removeFile, [])
  | .submit => m.handleSubmit
  | .tick random =>
    if m.loading then
      ({ m with uploadProgress := UploadModal.progressTick random m.uploadProgress }, [])
    else (m, [])
  | .settled result => if m.loading then (m.handleSubmitSettled result, []) else (m, [])

/-- The dialog after a sequence of events, oldest first. -/
def UploadModal.run (m : UploadModal) : List UploadEvent → UploadModal
  | [] => m
  | e :: es => UploadModal.run (m.step e).1 es

/-! ## Upload request and video cards -/

/-- `uploadVideo` (lines 138-159): the state after and the returned result.
On success it starts both refetches, whose outcomes are `feed` and `mine`,
and closes the dialog. -/
def uploadVideo (outcome : Fetched UploadResult) (feed mine : Fetched VideosResponse)
    (s : AppState) : AppState × UploadResult :=
  match outcome with
  | .json data =>
    if data.success then
      ({ fetchUserVideos mine (fetchVideos feed s) with showUpload := false }, data)
    else (s, data)
  | .networkError => (s, ⟨false, some "Upload failed"⟩)
  | .badBody => (s, ⟨false, some "Upload failed"⟩)

/-- A request made to a card's media element. -/
inductive MediaRequest where
  | play
  | pause
  deriving DecidableEq, Repr

/-- One `VideoCard`: its two state cells (lines 329-330) and the playing flag
of its media element, which a play request sets and a pause request
clears. -/
structure VideoCard where
  videoError : Bool
  videoLoaded : Bool
  playing : Bool
  deriving DecidableEq, Repr

namespace VideoCard

/-- A card as it is first rendered. -/
def init : VideoCard := ⟨false, false, false⟩

/-- `handleVideoLoad` (lines 342-345). -/
def handleVideoLoad (c : VideoCard) : VideoCard :=
  { c with videoLoaded := true, videoError := false }

/-- `handleVideoError` (lines 347-351). -/
def handleVideoError (c : VideoCard) : VideoCard :=
  { c with videoError := true, videoLoaded := false }

/-- `handleVideoCanPlay` (lines 353-356). -/
def handleVideoCanPlay (c : VideoCard) : VideoCard :=
  { c with videoLoaded := true, videoError := false }

/-- Whether `videoRef.current` is set: the `video` element is rendered only
while the card has no error (lines 362-370). -/
def refPresent (c : VideoCard) : Bool :=
  !c.videoError

/-- The playback effect (lines 332-340): the card after, and the requests
made to its media element. -/
def playbackEffect (isActive isPlaying : Bool) (c : VideoCard) :
    VideoCard × List MediaRequest :=
  if isActive && c.refPresent && c.videoLoaded then
    if isPlaying then ({ c with playing := true }, [.play])
    else ({ c with playing := false }, [.pause])
  else (c, [])

end VideoCard

/-- The playback effect of every card of the feed (lines 281-289): the card
at position `index` is rendered with `isActive = (index === currentVideoIndex)`
and the shared `isPlaying`. -/
def syncCards (s : AppState) (cards : List VideoCard) :
    List (VideoCard × List MediaRequest) :=
  cards.mapIdx (fun index c =>
    c.playbackEffect (decide ((index : Int) = s.currentVideoIndex)) s.isPlaying)

/-- The cards after the playback effect of each. -/
def cardsAfterSync (s : AppState) (cards : List VideoCard) : List VideoCard :=
  (syncCards s cards).map (fun r => r.1)

/-- The events of one submission: the submit, the timer firing with the given
random values, and the request settling with `result`. -/
def UploadModal.submission (random : List ℚ) (result : UploadResult) : List UploadEvent :=
  .submit :: (random.map .tick ++ [.settled result])

/-! ## Reference definitions and trace predicates -/

namespace Spec

/-- Navigate-up as the specification words it: if the active index is above
0, one less; otherwise unchanged. -/
def navigateUp (i : Int) : Int :=
  if i > 0 then i - 1 else i

/-- Navigate-down as the specification words it: if the active index is below
`length - 1`, one more; otherwise unchanged. -/
def navigateDown (n : Nat) (i : Int) : Int :=
  if i < (n : Int) - 1 then i + 1 else i

/-- A jump as the specification words it: the active index becomes the
position that was clicked. -/
def jump (k : Nat) (_i : Int) : Int :=
  (k : Int)

end Spec

/-- A fetch of the feed keeps the active index in range: the list it installs
is empty or longer than the active index. -/
def FeedFits (s : AppState) : Event → Prop
  | .fetchVideos (.json data) =>
    data.success = true → data.videos ≠ [] → s.currentVideoIndex < (data.videos.length : Int)
  | _ => True

instance (s : AppState) (e : Event) : Decidable (FeedFits s e) := by
  unfold FeedFits
  split <;> infer_instance

/-- Every feed fetch of the trace keeps the active index in range. -/
def FeedsFit (J : JsonCodec) : AppState → List Event → Prop
  | _, [] => True
  | s, e :: es => FeedFits s e ∧ FeedsFit J (step J s e) es

instance decFeedsFit (J : JsonCodec) : (s : AppState) → (es : List Event) →
    Decidable (FeedsFit J s es)
  | _, [] => isTrue trivial
  | s, e :: es =>
    match (inferInstance : Decidable (FeedFits s e)), decFeedsFit J (step J s e) es with
    | isTrue h, isTrue t => isTrue ⟨h, t⟩
    | isFalse h, _ => isFalse (fun c => h c.1)
    | _, isFalse t => isFalse (fun c => t c.2)

/-- The index is never negative, and it is below the length of a non-empty
feed. -/
def IndexOk (s : AppState) : Prop :=
  0 ≤ s.currentVideoIndex ∧ (s.videos ≠ [] → s.currentVideoIndex < (s.videos.length : Int))

/-- An ArrowDown pressed while nobody is logged in finds a feed of fewer than
two videos, over which it cannot move. -/
def DownNeedsUser (s : AppState) : Event → Prop
  | .keydown key => s.user = none → key = "ArrowDown" → s.videos.length < 2
  | _ => True

instance (s : AppState) (e : Event) : Decidable (DownNeedsUser s e) := by
  unfold DownNeedsUser
  split <;> infer_instance

/-- No ArrowDown of the trace is pressed while logged out over a feed of two
or more videos. -/
def DownsNeedUser (J : JsonCodec) : AppState → List Event → Prop
  | _, [] => True
  | s, e :: es => DownNeedsUser s e ∧ DownsNeedUser J (step J s e) es

instance decDownsNeedUser (J : JsonCodec) : (s : AppState) → (es : List Event) →
    Decidable (DownsNeedUser J s es)
  | _, [] => isTrue trivial
  | s, e :: es =>
    match (inferInstance : Decidable (DownNeedsUser s e)), decDownsNeedUser J (step J s e) es with
    | isTrue h, isTrue t => isTrue ⟨h, t⟩
    | isFalse h, _ => isFalse (fun c => h c.1)
    | _, isFalse t => isFalse (fun c => t c.2)

/-- The verification request of the mount effect is made and reports
success. -/
def TokenVerified (storage : LocalStorage) (verify : Fetched VideosResponse) : Prop :=
  ∃ savedToken data, storage.getItem .token = some savedToken ∧ savedToken ≠ "" ∧
    verify = .json data ∧ data.success = true

/-- The selected file, if there is one, declares a video type. -/
def FileIsVideo (m : UploadModal) : Prop :=
  ∀ f, m.file = some f → startsWith f.type "video/" = true

/-- No card other than the one at the active index is playing. -/
def OnlyActivePlays (s : AppState) (cards : List VideoCard) : Prop :=
  ∀ (i : Nat) (c : VideoCard), cards[i]? = some c → (i : Int) ≠ s.currentVideoIndex →
    c.playing = false

namespace Spec

/-- The user's own videos as the specification words it: the videos of the
list, in its order, whose creator name or legacy user name is the user's
name. -/
def ownVideos (user : UserProfile) : List Video → List Video
  | [] => []
  | v :: rest =>
    if v.creatorUsername = user.username ∨ v.username = user.username then
      v :: ownVideos user rest
    else ownVideos user rest

end Spec

/-! ## Values for the examples -/

/-- A profile as a login response carries it. -/
def ann : UserProfile := ⟨some "ann", some "creator"⟩

/-- A successful login response. -/
def loginOk : AuthResponse := ⟨true, none, some "tok-1", some ann⟩

/-- A video file and a text file. -/
def clip : FileBlob := ⟨"sunset_beach.mp4", "video/mp4", 10485760⟩

/-- The text file. -/
def notes : FileBlob := ⟨"notes.txt", "text/plain", 120⟩

/-- Stands in for the platform's `JSON` in the examples, none of which parses
a stored profile. -/
def exampleCodec : JsonCodec where
  parse text := if text = "null" then .value none else .parseError
  stringify u := u.username.getD "" ++ ":" ++ u.role.getD ""

/-- Three videos of a feed. -/
def videoA : Video := ⟨"a", "First", some "ann", none⟩

/-- The second video. -/
def videoB : Video := ⟨"b", "Second", some "bob", none⟩

/-- The third video. -/
def videoC : Video := ⟨"c", "Third", none, some "ann"⟩

/-- A feed of two videos arrives, ArrowDown is pressed, and a refetch brings a
feed of one video. -/
def shrinkingTrace : List Event :=
  [.fetchVideos (.json ⟨true, [videoA, videoB]⟩), .keydown "ArrowDown",
   .fetchVideos (.json ⟨true, [videoA]⟩)]

/-- A feed of two videos arrives, ArrowDown is pressed, and a refetch brings a
feed of three videos. -/
def growingTrace : List Event :=
  [.fetchVideos (.json ⟨true, [videoA, videoB]⟩), .keydown "ArrowDown",
   .fetchVideos (.json ⟨true, [videoA, videoB, videoC]⟩)]

/-- A feed of two videos arrives and ArrowDown is pressed, all on the
authentication screen. -/
def loggedOutArrowTrace : List Event :=
  [.fetchVideos (.json ⟨true, [videoA, videoB]⟩), .keydown "ArrowDown"]

/-- ArrowDown is pressed on the authentication screen before any feed has
arrived; then, with a feed of two videos, the user logs in, moves down the
feed, logs out and presses ArrowUp and Space on the authentication screen. -/
def sessionTrace : List Event :=
  [.keydown "ArrowDown", .fetchVideos (.json ⟨true, [videoA, videoB]⟩),
   .login (.json loginOk), .keydown "ArrowDown", .logout, .keydown "ArrowUp",
   .keydown " "]

/-- A draft is filled in: a video file is chosen and a title typed. -/
def draftTrace : List UploadEvent :=
  [.fileChange [clip] "blob:1", .setTitle "  Sunset "]

/-- Random values of the progress timer, each in `[0, 1)`. -/
def overshootingRandoms : List ℚ :=
  [15 / 16, 15 / 16, 15 / 16, 15 / 16, 1 / 2, 15 / 16]

/-- The feed of two videos has arrived on a fresh visit; nobody is logged
in. -/
def loggedOutFeed : AppState :=
  fetchVideos (.json ⟨true, [videoA, videoB]⟩) (App.init LocalStorage.empty)

/-- The same feed after a login: the logged-in feed view, in which the two
cards are rendered. -/
def loggedInFeed : AppState :=
  (login exampleCodec (.json loginOk) loggedOutFeed).1

/-- The logged-in creator has pressed the upload button: the upload dialog is
open. -/
def uploadDialogOpen : AppState :=
  { loggedInFeed with showUpload := true }

/-- The two cards of the logged-in feed, both loaded; the first, the active
one, is playing. -/
def firstCardPlaying : List VideoCard :=
  cardsAfterSync loggedInFeed [VideoCard.init.handleVideoLoad, VideoCard.init.handleVideoLoad]

/-- A draft ready to be submitted. -/
def readyDraft : UploadModal :=
  UploadModal.run UploadModal.init draftTrace

/-- A response of the my-videos endpoint with a video of somebody else in the
middle. -/
def mixedVideos : List Video := [videoA, videoB, videoC]

/-! ## Lemmas -/

theorem handleKeyPress_indexOk (key : String) (s : AppState) (h : IndexOk s) :
    IndexOk (handleKeyPress key s) := by
  obtain ⟨h0, h1⟩ := h
  unfold handleKeyPress
  split_ifs with hu hd hs
  · refine ⟨by simp only; omega, fun hv => ?_⟩
    have := h1 hv
    simp only at hv ⊢
    omega
  · refine ⟨by simp only; omega, fun _ => ?_⟩
    simp only
    omega
  · exact ⟨h0, h1⟩
  · exact ⟨h0, h1⟩

theorem mem_navDots {s : AppState} {k : Nat} (h : k ∈ navDots s) : k < s.videos.length := by
  unfold navDots at h
  split_ifs at h
  · exact List.mem_range.mp h
  · simp at h

theorem step_indexOk (J : JsonCodec) (s : AppState) (e : Event) (h : IndexOk s)
    (hf : FeedFits s e) : IndexOk (step J s e) := by
  obtain ⟨h0, h1⟩ := h
  cases e with
  | fetchVideos outcome =>
    cases outcome with
    | json data =>
      simp only [step, fetchVideos]
      split_ifs with hs
      · exact ⟨h0, fun hv => hf hs hv⟩
      · exact ⟨h0, h1⟩
    | networkError => exact ⟨h0, h1⟩
    | badBody => exact ⟨h0, h1⟩
  | fetchUserVideos outcome =>
    simp only [step, fetchUserVideos]
    split
    · exact ⟨h0, h1⟩
    · split
      · split_ifs
        · exact ⟨h0, h1⟩
        · exact ⟨h0, h1⟩
      · exact ⟨h0, h1⟩
      · exact ⟨h0, h1⟩
  | keydown key => exact handleKeyPress_indexOk key s ⟨h0, h1⟩
  | navDot index =>
    simp only [step]
    split_ifs with hm
    · have := mem_navDots hm
      refine ⟨by simp [navDotClick], fun _ => ?_⟩
      simp only [navDotClick]
      omega
    · exact ⟨h0, h1⟩
  | wrapperClick =>
    simp only [step]
    split_ifs
    · exact ⟨h0, h1⟩
    · exact ⟨h0, h1⟩
  | login outcome =>
    simp only [step]
    split_ifs
    · cases outcome with
      | json data =>
        simp only [login]
        split_ifs
        · exact ⟨h0, h1⟩
        · exact ⟨h0, h1⟩
      | networkError => exact ⟨h0, h1⟩
      | badBody => exact ⟨h0, h1⟩
    · exact ⟨h0, h1⟩
  | signup outcome =>
    simp only [step]
    split_ifs
    · cases outcome with
      | json data =>
        simp only [signup]
        split_ifs
        · exact ⟨h0, h1⟩
        · exact ⟨h0, h1⟩
      | networkError => exact ⟨h0, h1⟩
      | badBody => exact ⟨h0, h1⟩
    · exact ⟨h0, h1⟩
  | logout =>
    simp only [step]
    split_ifs
    · exact ⟨h0, h1⟩
    · refine ⟨le_refl _, fun hv => ?_⟩
      have hv' : s.videos ≠ [] := hv
      have : 0 < s.videos.length := List.length_pos.mpr hv'
      show (0 : Int) < (s.videos.length : Int)
      omega
  | setCurrentView view =>
    simp only [step]
    split_ifs
    · exact ⟨h0, h1⟩
    · exact ⟨h0, h1⟩

theorem fetchVideos_index (outcome : Fetched VideosResponse) (s : AppState) :
    (fetchVideos outcome s).currentVideoIndex = s.currentVideoIndex := by
  cases outcome with
  | json data => simp only [fetchVideos]; split_ifs <;> rfl
  | networkError => rfl
  | badBody => rfl

theorem run_indexOk (J : JsonCodec) (es : List Event) :
    ∀ s : AppState, IndexOk s → FeedsFit J s es → IndexOk (run J s es) := by
  induction es with
  | nil => intro s h _; exact h
  | cons e es ih =>
    intro s h hf
    exact ih (step J s e) (step_indexOk J s e h hf.1) hf.2

/-! ## Feed controller -/

/-- C1, as stated, fails: a trace from the initial state ends with a
non-empty feed and an active index outside it.  A feed of two videos arrives,
ArrowDown moves to index 1, and a refetch installs a feed of one video while
the index stays 1. -/
theorem index_invariant_refuted :
    ¬ ∀ (J : JsonCodec) (s : AppState) (es : List Event),
        IsInitial s → IndexInRange (run J s es) := by
  intro h
  have h1 := h exampleCodec (App.init LocalStorage.empty) shrinkingTrace
    ⟨rfl, rfl, rfl⟩ (by decide)
  revert h1
  decide

/-- C1, amended: from every initial state, along every trace whose feed
fetches each install a list that is empty or longer than the active index at
that moment, a non-empty feed has `0 ≤ activeIndex < videos.length`; and a
feed fetch, whatever its outcome, leaves `activeIndex` as it was. -/
theorem index_invariant_when_feeds_fit (J : JsonCodec) (s : AppState) (es : List Event)
    (hinit : IsInitial s) (hfit : FeedsFit J s es) :
    IndexInRange (run J s es) ∧
    (∀ (outcome : Fetched VideosResponse) (s0 : AppState),
      (fetchVideos outcome s0).currentVideoIndex = s0.currentVideoIndex ∧
      (step J s0 (.fetchVideos outcome)).currentVideoIndex = s0.currentVideoIndex) := by
  have hok : IndexOk s := by
    obtain ⟨hv, hi, _⟩ := hinit
    exact ⟨by omega, fun hne => absurd hv hne⟩
  have := run_indexOk J es s hok hfit
  exact ⟨fun hne => ⟨this.1, this.2 hne⟩,
    fun outcome s0 => ⟨fetchVideos_index outcome s0, fetchVideos_index outcome s0⟩⟩

/-- The amended C1 at a trace whose refetch brings a longer feed. -/
theorem index_invariant_when_feeds_fit_witness :
    IsInitial (App.init LocalStorage.empty) ∧
    FeedsFit exampleCodec (App.init LocalStorage.empty) growingTrace ∧
    IndexInRange (run exampleCodec (App.init LocalStorage.empty) growingTrace) :=
  ⟨⟨rfl, rfl, rfl⟩, by decide,
    (index_invariant_when_feeds_fit exampleCodec (App.init LocalStorage.empty) growingTrace
      ⟨rfl, rfl, rfl⟩ (by decide)).1⟩

/-- C2: in a feed of `n ≥ 1` videos with active index `0 ≤ i < n`, ArrowDown
gives the reference navigate-down (`i + 1` below the last index, else `i`),
ArrowUp gives the reference navigate-up (`i - 1` above 0, else `i`), a click
on the dot of a position `k < n` gives exactly `k`, every rendered dot is such
a position, and `m` ArrowDown presses in a row give `min (i + m) (n - 1)`. -/
theorem navigation_matches_reference (J : JsonCodec) (s : AppState) (n : Nat) (i : Int)
    (hlen : s.videos.length = n) (hn : 1 ≤ n) (hidx : s.currentVideoIndex = i)
    (hi0 : 0 ≤ i) (hin : i < (n : Int)) :
    (handleKeyPress "ArrowDown" s).currentVideoIndex = Spec.navigateDown n i ∧
    Spec.navigateDown n i = (if i < (n : Int) - 1 then i + 1 else i) ∧
    (handleKeyPress "ArrowUp" s).currentVideoIndex = Spec.navigateUp i ∧
    Spec.navigateUp i = (if i > 0 then i - 1 else i) ∧
    (∀ k : Nat, k < n → (navDotClick k s).currentVideoIndex = Spec.jump k i ∧
      Spec.jump k i = (k : Int)) ∧
    (∀ k : Nat, k ∈ navDots s →
      k < n ∧ (step J s (.navDot k)).currentVideoIndex = (k : Int)) ∧
    (∀ m : Nat, (run J s (List.replicate m (.keydown "ArrowDown"))).currentVideoIndex
      = min (i + (m : Int)) ((n : Int) - 1)) := by
  refine ⟨?_, rfl, ?_, rfl, fun k _ => ⟨rfl, rfl⟩, fun k hk => ⟨?_, ?_⟩, ?_⟩
  · unfold handleKeyPress Spec.navigateDown
    have h1 : ¬ ("ArrowDown" = "ArrowUp") := by decide
    simp only [h1, false_and, if_false, true_and, hlen, hidx]
    split_ifs <;> first | rfl | simp_all
  · unfold handleKeyPress Spec.navigateUp
    have h1 : ¬ ("ArrowUp" = "ArrowDown") := by decide
    have h2 : ¬ ("ArrowUp" = " ") := by decide
    simp only [h1, h2, false_and, if_false, true_and, hidx]
    split_ifs <;> first | rfl | simp_all
  · exact hlen ▸ mem_navDots hk
  · simp only [step, if_pos hk, navDotClick]
  · intro m
    induction m generalizing s i with
    | zero =>
      simp only [List.replicate, run, hidx, Nat.cast_zero, add_zero]
      omega
    | succ m ih =>
      simp only [List.replicate, run, step]
      have hstep : (handleKeyPress "ArrowDown" s).currentVideoIndex = Spec.navigateDown n i := by
        unfold handleKeyPress Spec.navigateDown
        have h1 : ¬ ("ArrowDown" = "ArrowUp") := by decide
        simp only [h1, false_and, if_false, true_and, hlen, hidx]
        split_ifs <;> first | rfl | simp_all
      have hvid : (handleKeyPress "ArrowDown" s).videos.length = n := by
        unfold handleKeyPress
        split_ifs <;> exact hlen
      have hb : 0 ≤ Spec.navigateDown n i ∧ Spec.navigateDown n i < (n : Int) := by
        unfold Spec.navigateDown
        split_ifs <;> omega
      rw [ih (handleKeyPress "ArrowDown" s) (Spec.navigateDown n i) hvid hstep hb.1 hb.2]
      unfold Spec.navigateDown
      push_cast
      split_ifs <;> omega

/-- C2 at the feed of three videos with active index 0: two ArrowDown presses
give 2 and a third leaves 2. -/
theorem navigation_matches_reference_witness :
    (run exampleCodec (fetchVideos (.json ⟨true, [videoA, videoB, videoC]⟩)
        (App.init LocalStorage.empty))
      (List.replicate 2 (.keydown "ArrowDown"))).currentVideoIndex = 2 ∧
    (run exampleCodec (fetchVideos (.json ⟨true, [videoA, videoB, videoC]⟩)
        (App.init LocalStorage.empty))
      (List.replicate 3 (.keydown "ArrowDown"))).currentVideoIndex = 2 := by
  have h := navigation_matches_reference exampleCodec
    (fetchVideos (.json ⟨true, [videoA, videoB, videoC]⟩) (App.init LocalStorage.empty))
    3 0 rfl (by decide) rfl (by decide) (by decide)
  exact ⟨h.2.2.2.2.2.2 2, h.2.2.2.2.2.2 3⟩

/-- C3: a Space key press and a click on a video wrapper each replace
`isPlaying` by its negation and leave `activeIndex` and `videos` as they were;
ArrowUp, ArrowDown and a jump leave `isPlaying` and `videos` as they were. -/
theorem toggle_and_navigation_are_separate (s : AppState) (k : Nat) :
    ((handleKeyPress " " s).isPlaying = (!s.isPlaying) ∧
      (handleKeyPress " " s).currentVideoIndex = s.currentVideoIndex ∧
      (handleKeyPress " " s).videos = s.videos) ∧
    ((onPlayToggle s).isPlaying = (!s.isPlaying) ∧
      (onPlayToggle s).currentVideoIndex = s.currentVideoIndex ∧
      (onPlayToggle s).videos = s.videos) ∧
    ((handleKeyPress "ArrowUp" s).isPlaying = s.isPlaying ∧
      (handleKeyPress "ArrowUp" s).videos = s.videos) ∧
    ((handleKeyPress "ArrowDown" s).isPlaying = s.isPlaying ∧
      (handleKeyPress "ArrowDown" s).videos = s.videos) ∧
    ((navDotClick k s).isPlaying = s.isPlaying ∧ (navDotClick k s).videos = s.videos) := by
  have h1 : ¬ (" " = "ArrowUp") := by decide
  have h2 : ¬ (" " = "ArrowDown") := by decide
  have h3 : ¬ ("ArrowUp" = "ArrowDown") := by decide
  have h4 : ¬ ("ArrowUp" = " ") := by decide
  have h5 : ¬ ("ArrowDown" = "ArrowUp") := by decide
  have h6 : ¬ ("ArrowDown" = " ") := by decide
  refine ⟨?_, ⟨rfl, rfl, rfl⟩, ?_, ?_, ⟨rfl, rfl⟩⟩
  · unfold handleKeyPress
    simp [h1, h2]
  · unfold handleKeyPress
    simp only [h3, h4, false_and, if_false, true_and]
    split_ifs <;> exact ⟨rfl, rfl⟩
  · unfold handleKeyPress
    simp only [h5, h6, false_and, if_false, true_and]
    split_ifs <;> exact ⟨rfl, rfl⟩

/-! ## Session -/

/-- C4: after `logout`, from every state, the in-memory user is null, neither
the `token` key nor the `user` key is in storage, and `activeIndex` is 0. -/
theorem logout_clears_session_and_index (s : AppState) :
    (logout s).user = none ∧
    (logout s).storage.getItem .token = none ∧
    (logout s).storage.getItem .user = none ∧
    (logout s).storage = LocalStorage.empty ∧
    (logout s).currentVideoIndex = 0 :=
  ⟨rfl, rfl, rfl, rfl, rfl⟩

/-- C5: with a saved token that the mount effect sends for verification, if
the verification call answers `success: false`, or fails at the transport
level, or its body cannot be parsed, then afterwards neither key is in
storage, the in-memory user is null, and the whole state equals the one of a
fresh visit with empty storage. -/
theorem restore_is_fail_closed (J : JsonCodec) (storage : LocalStorage) (savedToken : String)
    (verify feed : Fetched VideosResponse)
    (htoken : storage.getItem .token = some savedToken) (hsent : savedToken ≠ "")
    (hfail : (∃ data, verify = .json data ∧ data.success = false) ∨
      verify = .networkError ∨ verify = .badBody) :
    (mount J storage verify feed).storage.getItem .token = none ∧
    (mount J storage verify feed).storage.getItem .user = none ∧
    (mount J storage verify feed).user = none ∧
    ∀ verify0, mount J storage verify feed = mount J LocalStorage.empty verify0 feed := by
  have hempty : ∀ verify0, restoreSession J verify0 (App.init LocalStorage.empty)
      = App.init LocalStorage.empty := fun _ => rfl
  have hclear : restoreSession J verify (App.init storage) = App.init LocalStorage.empty := by
    have hget : (App.init storage).storage.getItem .token = some savedToken := htoken
    unfold restoreSession
    rw [hget]
    simp only [if_neg hsent]
    rcases hfail with ⟨data, rfl, hd⟩ | rfl | rfl
    · simp only [hd]
      rfl
    · rfl
    · rfl
  have hstate : ∀ verify0, mount J storage verify feed = mount J LocalStorage.empty verify0 feed := by
    intro verify0
    unfold mount
    rw [hclear, hempty]
  refine ⟨?_, ?_, ?_, hstate⟩
  · rw [hstate verify]
    cases feed with
    | json data => unfold mount fetchVideos; simp only [hempty]; split_ifs <;> rfl
    | networkError => rfl
    | badBody => rfl
  · rw [hstate verify]
    cases feed with
    | json data => unfold mount fetchVideos; simp only [hempty]; split_ifs <;> rfl
    | networkError => rfl
    | badBody => rfl
  · rw [hstate verify]
    cases feed with
    | json data => unfold mount fetchVideos; simp only [hempty]; split_ifs <;> rfl
    | networkError => rfl
    | badBody => rfl

/-- C5 at a stored session whose token the server rejects. -/
theorem restore_is_fail_closed_witness :
    (mount exampleCodec ⟨some "tok-0", some "ann:creator"⟩ (.json ⟨false, []⟩)
      (.json ⟨true, [videoA]⟩)).storage = LocalStorage.empty ∧
    (mount exampleCodec ⟨some "tok-0", some "ann:creator"⟩ (.json ⟨false, []⟩)
      (.json ⟨true, [videoA]⟩)).user = none := by
  have h := restore_is_fail_closed exampleCodec ⟨some "tok-0", some "ann:creator"⟩ "tok-0"
    (.json ⟨false, []⟩) (.json ⟨true, [videoA]⟩) rfl (by decide) (Or.inl ⟨_, rfl, rfl⟩)
  exact ⟨by rw [h.2.2.2 .networkError]; rfl, h.2.2.1⟩

/-- C6, as stated, fails: with a token in storage, no `user` key, and a
verification call that succeeds, the mount effect sets the user to the empty
object, which is truthy, and the logged-in view is rendered. -/
theorem missing_user_field_refuted :
    ¬ ∀ (J : JsonCodec) (storage : LocalStorage) (verify feed : Fetched VideosResponse),
        storage.getItem .token = none ∨ storage.getItem .user = none →
        authScreenShown (mount J storage verify feed) = true := by
  intro h
  have h1 := h exampleCodec ⟨some "tok-0", none⟩ (.json ⟨true, []⟩) (.json ⟨true, []⟩)
    (Or.inr rfl)
  revert h1
  decide

/-- C6, amended: when the token or the serialized user is missing from
storage, session restore ends on the authentication screen exactly when the
verification call is not made or does not report success; this is always so
when the token is missing.  When it is made and reports success, only the
user being missing, the in-memory user becomes the empty object and the
logged-in view is rendered. -/
theorem missing_field_restore (J : JsonCodec) (storage : LocalStorage)
    (verify feed : Fetched VideosResponse)
    (hmissing : storage.getItem .token = none ∨ storage.getItem .user = none) :
    (authScreenShown (mount J storage verify feed) = true ↔ ¬ TokenVerified storage verify) ∧
    (storage.getItem .token = none → authScreenShown (mount J storage verify feed) = true) ∧
    (TokenVerified storage verify →
      (mount J storage verify feed).user = some ⟨none, none⟩) := by
  have huser : ∀ s : AppState, (fetchVideos feed s).user = s.user := by
    intro s
    cases feed with
    | json data => simp only [fetchVideos]; split_ifs <;> rfl
    | networkError => rfl
    | badBody => rfl
  have hshown : authScreenShown (mount J storage verify feed)
      = (restoreSession J verify (App.init storage)).user.isNone := by
    unfold authScreenShown mount
    rw [huser]
  have hnone : storage.getItem .token = none →
      (restoreSession J verify (App.init storage)).user = none := by
    intro ht
    have hget : (App.init storage).storage.getItem .token = none := ht
    unfold restoreSession
    rw [hget]
    rfl
  have hverified : TokenVerified storage verify →
      (restoreSession J verify (App.init storage)).user = some ⟨none, none⟩ := by
    rintro ⟨t, data, ht, hne, rfl, hd⟩
    have hu : storage.getItem .user = none := by
      rcases hmissing with h | h
      · rw [ht] at h; cases h
      · exact h
    have hget : (App.init storage).storage.getItem .token = some t := ht
    have hgetu : (App.init storage).storage.getItem .user = none := hu
    unfold restoreSession
    rw [hget]
    simp only [if_neg hne, hd, if_true, hgetu, parseStoredUser]
  have hnot : ¬ TokenVerified storage verify →
      (restoreSession J verify (App.init storage)).user = none := by
    intro hn
    cases ht : storage.getItem .token with
    | none => exact hnone ht
    | some t =>
      have hget : (App.init storage).storage.getItem .token = some t := ht
      unfold restoreSession
      rw [hget]
      by_cases hne : t = ""
      · simp only [if_pos hne]
        rfl
      · simp only [if_neg hne]
        cases verify with
        | json data =>
          cases hd : data.success with
          | true => exact absurd ⟨t, data, ht, hne, rfl, hd⟩ hn
          | false => simp only [hd, Bool.false_eq_true, if_false]; rfl
        | networkError => rfl
        | badBody => rfl
  refine ⟨⟨fun hs hv => ?_, fun hn => ?_⟩, fun ht => ?_, fun hv => ?_⟩
  · rw [hshown, hverified hv] at hs
    cases hs
  · rw [hshown, hnot hn]
    rfl
  · rw [hshown, hnone ht]
    rfl
  · unfold mount
    rw [huser]
    exact hverified hv

/-- The amended C6 at a storage without token: the authentication screen is
shown although the verification outcome offered is a success. -/
theorem missing_field_restore_witness :
    authScreenShown (mount exampleCodec ⟨none, some "ann:creator"⟩ (.json ⟨true, []⟩)
      (.json ⟨true, [videoA]⟩)) = true :=
  (missing_field_restore exampleCodec ⟨none, some "ann:creator"⟩ (.json ⟨true, []⟩)
    (.json ⟨true, [videoA]⟩) (Or.inl rfl)).2.1 rfl

theorem login_index (J : JsonCodec) (outcome : Fetched AuthResponse) (s : AppState) :
    (login J outcome s).1.currentVideoIndex = s.currentVideoIndex := by
  cases outcome with
  | json data => simp only [login]; split_ifs <;> rfl
  | networkError => rfl
  | badBody => rfl

theorem signup_index (J : JsonCodec) (outcome : Fetched AuthResponse) (s : AppState) :
    (signup J outcome s).1.currentVideoIndex = s.currentVideoIndex := by
  cases outcome with
  | json data => simp only [signup]; split_ifs <;> rfl
  | networkError => rfl
  | badBody => rfl

theorem handleKeyPress_user (key : String) (s : AppState) :
    (handleKeyPress key s).user = s.user := by
  unfold handleKeyPress
  split_ifs <;> rfl

theorem handleKeyPress_at_zero (key : String) (s : AppState)
    (hzero : s.currentVideoIndex = 0) (hdown : key = "ArrowDown" → s.videos.length < 2) :
    (handleKeyPress key s).currentVideoIndex = 0 := by
  unfold handleKeyPress
  split_ifs with hu hd
  · exact absurd hu.2 (by rw [hzero]; decide)
  · have hlen := hdown hd.1
    have hlt := hd.2
    rw [hzero] at hlt
    omega
  · exact hzero
  · exact hzero

theorem step_loggedOutAtZero (J : JsonCodec) (s : AppState) (e : Event)
    (h : s.user = none → s.currentVideoIndex = 0) (ha : DownNeedsUser s e) :
    (step J s e).user = none → (step J s e).currentVideoIndex = 0 := by
  cases e with
  | fetchVideos outcome =>
    cases outcome with
    | json data => simp only [step, fetchVideos]; split_ifs <;> exact h
    | networkError => exact h
    | badBody => exact h
  | fetchUserVideos outcome =>
    simp only [step, fetchUserVideos]
    split
    · exact h
    · split
      · split_ifs <;> exact h
      · exact h
      · exact h
  | keydown key =>
    intro hu
    have hu' : s.user = none := by rw [← handleKeyPress_user key s]; exact hu
    exact handleKeyPress_at_zero key s (h hu') (ha hu')
  | navDot index =>
    simp only [step]
    split_ifs with hm
    · intro hu
      have hu' : s.user = none := hu
      unfold navDots at hm
      rw [hu'] at hm
      simp at hm
    · exact h
  | wrapperClick =>
    simp only [step]
    split_ifs <;> exact h
  | login outcome =>
    simp only [step]
    split_ifs with hs
    · intro _
      rw [login_index]
      exact h (Option.isNone_iff_eq_none.mp hs)
    · exact h
  | signup outcome =>
    simp only [step]
    split_ifs with hs
    · intro _
      rw [signup_index]
      exact h (Option.isNone_iff_eq_none.mp hs)
    · exact h
  | logout =>
    simp only [step]
    split_ifs
    · exact h
    · intro _; rfl
  | setCurrentView view =>
    simp only [step]
    split_ifs <;> exact h

theorem run_loggedOutAtZero (J : JsonCodec) (es : List Event) :
    ∀ s : AppState, (s.user = none → s.currentVideoIndex = 0) → DownsNeedUser J s es →
      (run J s es).user = none → (run J s es).currentVideoIndex = 0 := by
  induction es with
  | nil => intro s h _; exact h
  | cons e es ih =>
    intro s h ha
    exact ih (step J s e) (step_loggedOutAtZero J s e h ha.1) ha.2

/-- C7, as stated, fails: on the authentication screen a feed of two videos
arrives and ArrowDown moves the index to 1; a login that succeeds then leaves
the index at 1. -/
theorem login_index_reset_refuted :
    ¬ ∀ (J : JsonCodec) (s : AppState) (es : List Event) (data : AuthResponse),
        IsInitial s → (run J s es).user = none → data.success = true →
        (login J (.json data) (run J s es)).1.currentVideoIndex = 0 := by
  intro h
  have h1 := h exampleCodec (App.init LocalStorage.empty) loggedOutArrowTrace loginOk
    ⟨rfl, rfl, rfl⟩ (by decide) rfl
  revert h1
  decide

/-- C7, amended: a login never changes `activeIndex`; and for every
logged-out state reached from the initial state by a trace in which no
ArrowDown is pressed while logged out over a feed of two or more videos (any
other key press and any feed fetch may occur while logged out), a login whose
response has success true yields `activeIndex = 0`. -/
theorem login_keeps_index_zero (J : JsonCodec) (s : AppState) (es : List Event)
    (data : AuthResponse) (hinit : IsInitial s) (harrows : DownsNeedUser J s es)
    (hout : (run J s es).user = none) (hok : data.success = true) :
    (login J (.json data) (run J s es)).1.currentVideoIndex = 0 ∧
    (login J (.json data) (run J s es)).1.user = data.user ∧
    ∀ (outcome : Fetched AuthResponse) (s0 : AppState),
      (login J outcome s0).1.currentVideoIndex = s0.currentVideoIndex := by
  refine ⟨?_, ?_, fun outcome s0 => login_index J outcome s0⟩
  · rw [login_index]
    exact run_loggedOutAtZero J es s (fun _ => hinit.2.1) harrows hout
  · simp only [login, hok, if_true]

/-- The amended C7 after ArrowDown before the feed arrived, a session with
navigation, a logout, and ArrowUp and Space on the authentication screen. -/
theorem login_keeps_index_zero_witness :
    (run exampleCodec (App.init LocalStorage.empty) sessionTrace).user = none ∧
    (login exampleCodec (.json loginOk)
      (run exampleCodec (App.init LocalStorage.empty) sessionTrace)).1.currentVideoIndex = 0 :=
  ⟨by decide,
    (login_keeps_index_zero exampleCodec (App.init LocalStorage.empty) sessionTrace loginOk
      ⟨rfl, rfl, rfl⟩ (by decide) (by decide) rfl).1⟩

/-- C8, as stated, fails in its last clause: `login` returns the server's
result as it came, so a failure response without a `message` field is
returned without a message string. -/
theorem auth_failure_message_refuted :
    ¬ ∀ (J : JsonCodec) (outcome : Fetched AuthResponse) (s : AppState),
        (login J outcome s).2.success = false → (login J outcome s).2.message.isSome = true := by
  intro h
  have h1 := h exampleCodec (.json ⟨false, none, none, none⟩) (App.init LocalStorage.empty) rfl
  revert h1
  decide

/-- C8, amended: for `login` and for `signup`, (a) on a response with success
true the in-memory user becomes the returned user, the returned token and the
serialized user are stored, the dialog is closed and the response is
returned; (b) on a response with success false the state is unchanged and
the response is returned; (c) on a transport failure or an unreadable body
the state is unchanged and the result is `success: false` with the message
`Login failed` (`Signup failed`); (d) every returned failure carries the
server's own message, if any, or else that message. -/
theorem auth_results (J : JsonCodec) (s : AppState) :
    (∀ data : AuthResponse, data.success = true →
      (login J (.json data) s).1.user = data.user ∧
      (login J (.json data) s).1.storage.getItem .token = some (data.token.getD "undefined") ∧
      (login J (.json data) s).1.storage.getItem .user = some (userText J data.user) ∧
      (∀ u, data.user = some u → userText J data.user = J.stringify u) ∧
      (login J (.json data) s).1.showLogin = false ∧
      (login J (.json data) s).2 = data) ∧
    (∀ data : AuthResponse, data.success = false →
      login J (.json data) s = (s, data)) ∧
    (login J .networkError s = (s, ⟨false, some "Login failed", none, none⟩) ∧
      login J .badBody s = (s, ⟨false, some "Login failed", none, none⟩)) ∧
    (∀ outcome, (login J outcome s).2.success = false →
      (login J outcome s).2.message =
        match outcome with
        | .json data => data.message
        | _ => some "Login failed") ∧
    (∀ data : AuthResponse, data.success = true →
      (signup J (.json data) s).1.user = data.user ∧
      (signup J (.json data) s).1.storage.getItem .token = some (data.token.getD "undefined") ∧
      (signup J (.json data) s).1.storage.getItem .user = some (userText J data.user) ∧
      (signup J (.json data) s).1.showSignup = false ∧
      (signup J (.json data) s).2 = data) ∧
    (∀ data : AuthResponse, data.success = false →
      signup J (.json data) s = (s, data)) ∧
    (signup J .networkError s = (s, ⟨false, some "Signup failed", none, none⟩) ∧
      signup J .badBody s = (s, ⟨false, some "Signup failed", none, none⟩)) ∧
    (∀ outcome, (signup J outcome s).2.success = false →
      (signup J outcome s).2.message =
        match outcome with
        | .json data => data.message
        | _ => some "Signup failed") := by
  refine ⟨fun data hd => ?_, fun data hd => ?_, ⟨rfl, rfl⟩, fun outcome _ => ?_,
    fun data hd => ?_, fun data hd => ?_, ⟨rfl, rfl⟩, fun outcome _ => ?_⟩
  · refine ⟨?_, ?_, ?_, fun u hu => by rw [hu]; rfl, ?_, ?_⟩ <;>
      simp only [login, hd, if_true] <;> rfl
  · simp only [login, hd, Bool.false_eq_true, if_false]
  · cases outcome with
    | json data => simp only [login]; split_ifs <;> rfl
    | networkError => rfl
    | badBody => rfl
  · refine ⟨?_, ?_, ?_, ?_, ?_⟩ <;> simp only [signup, hd, if_true] <;> rfl
  · simp only [signup, hd, Bool.false_eq_true, if_false]
  · cases outcome with
    | json data => simp only [signup]; split_ifs <;> rfl
    | networkError => rfl
    | badBody => rfl

/-- The amended C8 at a login that succeeds and at one the server refuses
with a message. -/
theorem auth_results_witness :
    (login exampleCodec (.json loginOk) (App.init LocalStorage.empty)).1.user = some ann ∧
    login exampleCodec (.json ⟨false, some "Invalid credentials", none, none⟩)
        (App.init LocalStorage.empty)
      = (App.init LocalStorage.empty, ⟨false, some "Invalid credentials", none, none⟩) :=
  ⟨((auth_results exampleCodec (App.init LocalStorage.empty)).1 loginOk rfl).1,
    (auth_results exampleCodec (App.init LocalStorage.empty)).2.1
      ⟨false, some "Invalid credentials", none, none⟩ rfl⟩

/-! ## Upload dialog -/

theorem handleFile_fileIsVideo (selectedFile : Option FileBlob) (url : String) (m : UploadModal)
    (h : FileIsVideo m) : FileIsVideo (m.handleFile selectedFile url) := by
  cases selectedFile with
  | none => exact h
  | some f =>
    by_cases hv : startsWith f.type "video/" = true
    · intro g hg
      simp only [UploadModal.handleFile, hv, if_true] at hg
      cases hg
      exact hv
    · simp only [UploadModal.handleFile, hv, Bool.false_eq_true, if_false]
      exact h

theorem step_fileIsVideo (m : UploadModal) (e : UploadEvent) (h : FileIsVideo m) :
    FileIsVideo (m.step e).1 := by
  cases e with
  | setTitle value => exact h
  | setDescription value => exact h
  | drag eventType =>
    simp only [UploadModal.step, UploadModal.handleDrag]
    split_ifs <;> exact h
  | drop files url =>
    cases files with
    | nil => exact h
    | cons f rest => exact handleFile_fileIsVideo (some f) url _ h
  | fileChange files url =>
    cases files with
    | nil => exact h
    | cons f rest => exact handleFile_fileIsVideo (some f) url _ h
  | removeFile =>
    intro f hf
    cases hf
  | submit =>
    simp only [UploadModal.step, UploadModal.handleSubmit]
    split
    · exact h
    · split_ifs <;> exact h
  | tick random =>
    simp only [UploadModal.step]
    split_ifs <;> exact h
  | settled result =>
    simp only [UploadModal.step, UploadModal.handleSubmitSettled]
    split_ifs <;> exact h

theorem run_fileIsVideo (es : List UploadEvent) :
    ∀ m : UploadModal, FileIsVideo m → FileIsVideo (m.run es) := by
  induction es with
  | nil => intro m h; exact h
  | cons e es ih => intro m h; exact ih (m.step e).1 (step_fileIsVideo m e h)

/-- C9: in every state `m` the dialog can reach, choosing or dropping a file
whose declared type does not start with `video/` sets the validation error,
issues no request and leaves the selected file as it was; a submit hands a
payload to `onUpload` if and only if a file is selected and the trimmed title
is not empty; it is then exactly one payload, carrying the selected file,
whose declared type starts with `video/`; otherwise the submit sets a
validation error and issues no request. -/
theorem upload_validation_gate (es : List UploadEvent) (m : UploadModal)
    (hreach : m = UploadModal.run UploadModal.init es) :
    (∀ (f : FileBlob) (rest : List FileBlob) (url : String),
      startsWith f.type "video/" = false →
      (m.step (.fileChange (f :: rest) url)).2 = [] ∧
      (m.step (.fileChange (f :: rest) url)).1.file = m.file ∧
      (m.step (.fileChange (f :: rest) url)).1.error = some "Please select a valid video file" ∧
      (m.step (.drop (f :: rest) url)).2 = [] ∧
      (m.step (.drop (f :: rest) url)).1.file = m.file ∧
      (m.step (.drop (f :: rest) url)).1.error = some "Please select a valid video file") ∧
    ((m.step .submit).2 ≠ [] ↔ (m.file ≠ none ∧ trim m.title ≠ "")) ∧
    (∀ file : FileBlob, m.file = some file → trim m.title ≠ "" →
      (m.step .submit).2 = [⟨file, trim m.title, trim m.description, "entertainment"⟩] ∧
      startsWith file.type "video/" = true) ∧
    (m.file = none →
      (m.step .submit).2 = [] ∧ (m.step .submit).1.error = some "Please select a video file") ∧
    (m.file ≠ none → trim m.title = "" →
      (m.step .submit).2 = [] ∧ (m.step .submit).1.error = some "Please enter a title") := by
  have hvideo : FileIsVideo m := by
    rw [hreach]
    exact run_fileIsVideo es UploadModal.init (fun f hf => by cases hf)
  refine ⟨fun f rest url hf => ?_, ?_, fun file hfile ht => ?_, fun hnone => ?_,
    fun hsome ht => ?_⟩
  · simp [UploadModal.step, UploadModal.handleFileChange, UploadModal.handleDrop,
      UploadModal.handleFile, hf]
  · cases hfile : m.file with
    | none => simp [UploadModal.step, UploadModal.handleSubmit, hfile]
    | some file =>
      by_cases ht : trim m.title = ""
      · simp [UploadModal.step, UploadModal.handleSubmit, hfile, ht]
      · simp [UploadModal.step, UploadModal.handleSubmit, hfile, ht]
  · refine ⟨?_, hvideo file hfile⟩
    simp only [UploadModal.step, UploadModal.handleSubmit, hfile, if_neg ht]
  · simp only [UploadModal.step, UploadModal.handleSubmit, hnone]
    exact ⟨trivial, trivial⟩
  · cases hfile : m.file with
    | none => exact absurd hfile hsome
    | some file =>
      simp only [UploadModal.step, UploadModal.handleSubmit, hfile, if_pos ht]
      exact ⟨trivial, trivial⟩

/-- C9 at a draft with a video file and the title `  Sunset `: a text file is
refused, and the submit issues one request with the trimmed title. -/
theorem upload_validation_gate_witness :
    ((UploadModal.run UploadModal.init draftTrace).step (.fileChange [notes] "blob:2")).1.file
      = some clip ∧
    ((UploadModal.run UploadModal.init draftTrace).step .submit).2
      = [⟨clip, "Sunset", "", "entertainment"⟩] := by
  have h := upload_validation_gate draftTrace (UploadModal.run UploadModal.init draftTrace) rfl
  refine ⟨?_, ?_⟩
  · rw [(h.1 notes [] "blob:2" (by decide)).2.1]
    decide
  · rw [(h.2.2.1 clip (by decide) (by decide)).1]
    decide

theorem progressAfter_capped (rs : List ℚ) : UploadModal.progressAfter rs 90 = 90 := by
  cases rs with
  | nil => rfl
  | cons r rest => simp [UploadModal.progressAfter]

theorem progressAfter_cons (r : ℚ) (rest : List ℚ) (prev : ℚ) :
    UploadModal.progressAfter (r :: rest) prev
      = UploadModal.progressAfter rest (UploadModal.progressTick r prev) := by
  unfold UploadModal.progressTick
  rw [UploadModal.progressAfter]
  split_ifs
  · exact (progressAfter_capped rest).symm
  · rfl

theorem run_ticks (rs : List ℚ) :
    ∀ m : UploadModal, m.loading = true →
      (m.run (rs.map .tick)).uploadProgress = UploadModal.progressAfter rs m.uploadProgress ∧
      (m.run (rs.map .tick)).loading = true := by
  induction rs with
  | nil => intro m h; exact ⟨rfl, h⟩
  | cons r rest ih =>
    intro m h
    have hstep : (m.step (.tick r)).1
        = { m with uploadProgress := UploadModal.progressTick r m.uploadProgress } := by
      simp only [UploadModal.step, h, if_true]
    simp only [List.map, UploadModal.run, hstep, progressAfter_cons]
    exact ih _ h

/-- C10 fails on the code: with a file and a title in the draft, a submit
followed by six timer ticks whose random values all lie in `[0, 1)` leaves
the progress at 103.75 while the request is still outstanding, above 90 and
above 100. -/
theorem progress_overshoots :
    (∀ r ∈ overshootingRandoms, 0 ≤ r ∧ r < 1) ∧
    UploadModal.progressAfter overshootingRandoms 0 = 415 / 4 ∧
    (UploadModal.run (UploadModal.run UploadModal.init (draftTrace ++ [.submit]))
      (overshootingRandoms.map .tick)).uploadProgress = 415 / 4 ∧
    (UploadModal.run (UploadModal.run UploadModal.init (draftTrace ++ [.submit]))
      (overshootingRandoms.map .tick)).loading = true ∧
    ¬ (UploadModal.progressAfter overshootingRandoms 0 ≤ 90) ∧
    (100 : ℚ) < UploadModal.progressAfter overshootingRandoms 0 := by
  have hp : UploadModal.progressAfter overshootingRandoms 0 = 415 / 4 := by
    norm_num [UploadModal.progressAfter, overshootingRandoms]
  have hl : (UploadModal.run UploadModal.init (draftTrace ++ [.submit])).loading = true := by
    decide
  have h0 : (UploadModal.run UploadModal.init (draftTrace ++ [.submit])).uploadProgress = 0 := by
    rfl
  have ht := run_ticks overshootingRandoms _ hl
  rw [h0, hp] at ht
  refine ⟨?_, hp, ht.1, ht.2, ?_, ?_⟩
  · intro r hr
    simp only [overshootingRandoms, List.mem_cons, List.mem_singleton, List.not_mem_nil,
      or_false] at hr
    rcases hr with rfl | rfl | rfl | rfl | rfl | rfl <;> norm_num
  · rw [hp]; norm_num
  · rw [hp]; norm_num

theorem run_append (a b : List UploadEvent) :
    ∀ m : UploadModal, m.run (a ++ b) = (m.run a).run b := by
  induction a with
  | nil => intro m; rfl
  | cons e a ih => intro m; exact ih (m.step e).1

theorem run_ticks_frame (rs : List ℚ) :
    ∀ m : UploadModal, m.loading = true →
      m.run (rs.map .tick)
        = { m with uploadProgress := UploadModal.progressAfter rs m.uploadProgress } := by
  induction rs with
  | nil => intro m _; rfl
  | cons r rest ih =>
    intro m h
    have hstep : (m.step (.tick r)).1
        = { m with uploadProgress := UploadModal.progressTick r m.uploadProgress } := by
      simp only [UploadModal.step, h, if_true]
    simp only [List.map, UploadModal.run, hstep, progressAfter_cons]
    exact ih _ h

theorem uploadVideo_failure (outcome : Fetched UploadResult) (feed mine : Fetched VideosResponse)
    (s : AppState) (h : (uploadVideo outcome feed mine s).2.success = false) :
    (uploadVideo outcome feed mine s).1 = s ∧
    ((∃ data, outcome = .json data ∧ data.success = false ∧
        (uploadVideo outcome feed mine s).2 = data) ∨
      ((outcome = .networkError ∨ outcome = .badBody) ∧
        (uploadVideo outcome feed mine s).2 = ⟨false, some "Upload failed"⟩)) := by
  cases outcome with
  | json data =>
    cases hd : data.success with
    | true =>
      simp only [uploadVideo, hd, if_true] at h
      cases h
    | false =>
      refine ⟨?_, Or.inl ⟨data, rfl, hd, ?_⟩⟩ <;>
        simp only [uploadVideo, hd, Bool.false_eq_true, if_false]
  | networkError => exact ⟨rfl, Or.inr ⟨Or.inl rfl, rfl⟩⟩
  | badBody => exact ⟨rfl, Or.inr ⟨Or.inr rfl, rfl⟩⟩

/-- C11: for a draft with a file and a title that is not blank, a submission
whose upload result has success false, whether the server reported it or
`uploadVideo` made it up after a transport failure, ends with progress 0, the
error set to the result's message, loading false, and the file, its preview,
the title and the description as before the submission, whatever the timer
did meanwhile; the application state is untouched; and settling sets the
progress to 100 exactly when the result has success true. -/
theorem upload_failure_rolls_back (s : AppState) (m : UploadModal) (file : FileBlob)
    (random : List ℚ) (outcome : Fetched UploadResult) (feed mine : Fetched VideosResponse)
    (hfile : m.file = some file) (htitle : trim m.title ≠ "")
    (hfail : (uploadVideo outcome feed mine s).2.success = false) :
    (m.run (UploadModal.submission random (uploadVideo outcome feed mine s).2)).uploadProgress
      = 0 ∧
    (m.run (UploadModal.submission random (uploadVideo outcome feed mine s).2)).error
      = (uploadVideo outcome feed mine s).2.message ∧
    (m.run (UploadModal.submission random (uploadVideo outcome feed mine s).2)).loading
      = false ∧
    (m.run (UploadModal.submission random (uploadVideo outcome feed mine s).2)).file
      = m.file ∧
    (m.run (UploadModal.submission random (uploadVideo outcome feed mine s).2)).preview
      = m.preview ∧
    (m.run (UploadModal.submission random (uploadVideo outcome feed mine s).2)).title
      = m.title ∧
    (m.run (UploadModal.submission random (uploadVideo outcome feed mine s).2)).description
      = m.description ∧
    (uploadVideo outcome feed mine s).1 = s ∧
    ((∃ data, outcome = .json data ∧ data.success = false ∧
        (uploadVideo outcome feed mine s).2 = data) ∨
      ((outcome = .networkError ∨ outcome = .badBody) ∧
        (uploadVideo outcome feed mine s).2 = ⟨false, some "Upload failed"⟩)) ∧
    (∀ (result : UploadResult) (m0 : UploadModal),
      (m0.handleSubmitSettled result).uploadProgress = 100 ↔ result.success = true) := by
  have hsub : (m.step .submit).1
      = { m with loading := true, error := some "", uploadProgress := 0 } := by
    simp only [UploadModal.step, UploadModal.handleSubmit, hfile, if_neg htitle]
  have hrun : m.run (UploadModal.submission random (uploadVideo outcome feed mine s).2)
      = { m with
          loading := false
          error := (uploadVideo outcome feed mine s).2.message
          uploadProgress := 0 } := by
    unfold UploadModal.submission
    rw [UploadModal.run, hsub, run_append, run_ticks_frame random _ rfl]
    simp only [UploadModal.run, UploadModal.step, if_true, UploadModal.handleSubmitSettled,
      hfail, Bool.false_eq_true, if_false]
  have hup := uploadVideo_failure outcome feed mine s hfail
  refine ⟨?_, ?_, ?_, ?_, ?_, ?_, ?_, hup.1, hup.2, fun result m0 => ?_⟩
  · rw [hrun]
  · rw [hrun]
  · rw [hrun]
  · rw [hrun]
  · rw [hrun]
  · rw [hrun]
  · rw [hrun]
  · unfold UploadModal.handleSubmitSettled
    cases hr : result.success with
    | true => simp
    | false => simp

/-- C11 at the draft with a video file and a title: after ticks of the timer
the transport fails, and the dialog shows `Upload failed` over the draft as it
was. -/
theorem upload_failure_rolls_back_witness :
    (readyDraft.run (UploadModal.submission overshootingRandoms
      ⟨false, some "Upload failed"⟩)).uploadProgress = 0 ∧
    (readyDraft.run (UploadModal.submission overshootingRandoms
      ⟨false, some "Upload failed"⟩)).error = some "Upload failed" ∧
    (readyDraft.run (UploadModal.submission overshootingRandoms
      ⟨false, some "Upload failed"⟩)).file = some clip := by
  have h := upload_failure_rolls_back uploadDialogOpen readyDraft clip overshootingRandoms
    .networkError .networkError .networkError (by decide) (by decide) rfl
  exact ⟨h.1, h.2.1, h.2.2.2.1.trans (by decide)⟩

/-! ## Keyboard without a session -/

/-- C12, as stated, fails: on a fresh visit, with nobody logged in and the
feed of two videos fetched, ArrowDown moves the active index from 0 to 1 and
Space turns `isPlaying` off. -/
theorem keys_need_session_refuted :
    ¬ ∀ (s : AppState) (key : String), s.user = none →
        key = "ArrowUp" ∨ key = "ArrowDown" ∨ key = " " →
        (handleKeyPress key s).currentVideoIndex = s.currentVideoIndex ∧
        (handleKeyPress key s).isPlaying = s.isPlaying := by
  intro h
  have h1 := h loggedOutFeed "ArrowDown" rfl (Or.inr (Or.inl rfl))
  revert h1
  decide

/-- C12, amended: the key handler never looks at the session.  In every state
with no session, ArrowUp and ArrowDown leave `isPlaying` unchanged and move
`activeIndex` as they do in a session (one less above 0, one more below
`length - 1`), Space leaves `activeIndex` unchanged and negates `isPlaying`,
and the outcome of a key press is the same whatever the user is. -/
theorem keys_act_without_session (s : AppState) (hout : s.user = none) :
    ((handleKeyPress "ArrowUp" s).isPlaying = s.isPlaying ∧
      (handleKeyPress "ArrowUp" s).currentVideoIndex
        = (if s.currentVideoIndex > 0 then s.currentVideoIndex - 1 else s.currentVideoIndex)) ∧
    ((handleKeyPress "ArrowDown" s).isPlaying = s.isPlaying ∧
      (handleKeyPress "ArrowDown" s).currentVideoIndex
        = (if s.currentVideoIndex < (s.videos.length : Int) - 1 then s.currentVideoIndex + 1
           else s.currentVideoIndex)) ∧
    ((handleKeyPress " " s).isPlaying = (!s.isPlaying) ∧
      (handleKeyPress " " s).currentVideoIndex = s.currentVideoIndex) ∧
    (∀ key : String, (handleKeyPress key s).user = none) ∧
    (∀ (key : String) (u : Option UserProfile),
      handleKeyPress key { s with user := u } = { handleKeyPress key s with user := u }) := by
  have h1 : ¬ (" " = "ArrowUp") := by decide
  have h2 : ¬ (" " = "ArrowDown") := by decide
  have h3 : ¬ ("ArrowUp" = "ArrowDown") := by decide
  have h4 : ¬ ("ArrowUp" = " ") := by decide
  have h5 : ¬ ("ArrowDown" = "ArrowUp") := by decide
  have h6 : ¬ ("ArrowDown" = " ") := by decide
  refine ⟨?_, ?_, ?_, fun key => ?_, fun key u => ?_⟩
  · unfold handleKeyPress
    simp only [h3, h4, false_and, if_false, true_and]
    split_ifs <;> exact ⟨rfl, rfl⟩
  · unfold handleKeyPress
    simp only [h5, h6, false_and, if_false, true_and]
    split_ifs <;> exact ⟨rfl, rfl⟩
  · unfold handleKeyPress
    simp [h1, h2]
  · rw [handleKeyPress_user]
    exact hout
  · unfold handleKeyPress
    split_ifs <;> rfl

/-- The amended C12 on a fresh visit with the feed fetched: ArrowDown on the
authentication screen moves the index to 1. -/
theorem keys_act_without_session_witness :
    loggedOutFeed.user = none ∧
    (handleKeyPress "ArrowDown" loggedOutFeed).currentVideoIndex = 1 :=
  ⟨rfl, (keys_act_without_session loggedOutFeed rfl).2.1.2.trans (by decide)⟩

/-! ## Playback -/

theorem syncCards_getElem? (s : AppState) (cards : List VideoCard) (i : Nat) :
    (syncCards s cards)[i]? = (cards[i]?).map (fun c =>
      c.playbackEffect (decide ((i : Int) = s.currentVideoIndex)) s.isPlaying) := by
  unfold syncCards
  exact List.getElem?_mapIdx

/-- C13, as stated, fails: in the logged-in feed view two loaded cards are
rendered, the first active and playing.  ArrowDown makes the second card
active; the playback effects start the second card and make no request to
the first, which goes on playing. -/
theorem only_active_plays_refuted :
    ¬ ∀ (s : AppState) (cards : List VideoCard) (key : String),
        cardsRendered s = true → cards.length = s.videos.length →
        OnlyActivePlays s cards →
        OnlyActivePlays (handleKeyPress key s) (cardsAfterSync (handleKeyPress key s) cards) := by
  intro h
  have hcards : firstCardPlaying = [⟨false, true, true⟩, ⟨false, true, false⟩] := by decide
  have hbefore : OnlyActivePlays loggedInFeed firstCardPlaying := by
    intro i c hc hne
    rw [hcards] at hc
    match i, hc, hne with
    | 0, _, hne => exact absurd rfl hne
    | 1, hc, _ =>
      have hc' : some (⟨false, true, false⟩ : VideoCard) = some c := hc
      cases hc'
      rfl
    | n + 2, hc, _ => simp at hc
  have hafter := h loggedInFeed firstCardPlaying "ArrowDown" (by decide)
    (by rw [hcards]; decide) hbefore 0 ⟨false, true, true⟩
    (by rw [hcards]; decide) (by decide)
  revert hafter
  decide

/-- C13, amended: after any navigation or toggle, in the playback effects of
the cards, the card at the active index, once loaded and without error, gets
one request, play if `isPlaying` and pause if not, and its playing flag
becomes `isPlaying`; every other card gets no request at all, so it is never
asked to play whatever `isPlaying` is, and its playing flag stays what it
was. -/
theorem playback_follows_active_card (s : AppState) (cards : List VideoCard) (i : Nat)
    (c c1 : VideoCard) (requests : List MediaRequest) (hcard : cards[i]? = some c)
    (hsync : (syncCards s cards)[i]? = some (c1, requests)) :
    ((i : Int) ≠ s.currentVideoIndex → c1 = c ∧ requests = []) ∧
    ((i : Int) = s.currentVideoIndex → c.videoLoaded = true → c.videoError = false →
      c1.playing = s.isPlaying ∧
      requests = [if s.isPlaying then MediaRequest.play else MediaRequest.pause]) ∧
    (MediaRequest.play ∈ requests → (i : Int) = s.currentVideoIndex ∧ s.isPlaying = true) ∧
    (cardsAfterSync s cards)[i]? = some c1 := by
  have heff : c.playbackEffect (decide ((i : Int) = s.currentVideoIndex)) s.isPlaying
      = (c1, requests) := by
    rw [syncCards_getElem?, hcard] at hsync
    exact Option.some.inj hsync
  refine ⟨fun hne => ?_, fun heq hl he => ?_, fun hplay => ?_, ?_⟩
  · simp only [VideoCard.playbackEffect, hne, decide_False, Bool.false_and,
      Bool.false_eq_true, if_false, Prod.mk.injEq] at heff
    exact ⟨heff.1.symm, heff.2.symm⟩
  · simp only [VideoCard.playbackEffect, VideoCard.refPresent, heq, decide_True, he, hl,
      Bool.not_false, Bool.and_self, if_true] at heff
    cases hp : s.isPlaying with
    | true =>
      simp only [hp, if_true, Prod.mk.injEq] at heff
      obtain ⟨h1, h2⟩ := heff
      subst h1 h2
      exact ⟨rfl, rfl⟩
    | false =>
      simp only [hp, Bool.false_eq_true, if_false, Prod.mk.injEq] at heff
      obtain ⟨h1, h2⟩ := heff
      subst h1 h2
      exact ⟨rfl, rfl⟩
  · unfold VideoCard.playbackEffect at heff
    split_ifs at heff with hact hp
    · simp only [Bool.and_eq_true, decide_eq_true_eq] at hact
      exact ⟨hact.1.1, hp⟩
    · simp only [Prod.mk.injEq] at heff
      rw [← heff.2] at hplay
      simp at hplay
    · simp only [Prod.mk.injEq] at heff
      rw [← heff.2] at hplay
      simp at hplay
  · unfold cardsAfterSync
    rw [List.getElem?_map, hsync]
    rfl

/-- The amended C13 in the logged-in feed view, at the two loaded cards
after ArrowDown: the first card, no longer active, gets no request and keeps
its playing flag. -/
theorem playback_follows_active_card_witness :
    cardsRendered (handleKeyPress "ArrowDown" loggedInFeed) = true ∧
    firstCardPlaying[0]? = some ⟨false, true, true⟩ ∧
    (syncCards (handleKeyPress "ArrowDown" loggedInFeed) firstCardPlaying)[0]?
      = some (⟨false, true, true⟩, []) ∧
    (cardsAfterSync (handleKeyPress "ArrowDown" loggedInFeed) firstCardPlaying)[0]?
      = some ⟨false, true, true⟩ :=
  ⟨by decide, by decide, by decide,
    (playback_follows_active_card (handleKeyPress "ArrowDown" loggedInFeed)
      firstCardPlaying 0 ⟨false, true, true⟩ ⟨false, true, true⟩ [] (by decide)
      (by decide)).2.2.2⟩

/-! ## My videos -/

theorem ownVideos_eq_filter (user : UserProfile) (videos : List Video) :
    Spec.ownVideos user videos = videos.filter (isOwnVideo user) := by
  induction videos with
  | nil => rfl
  | cons v rest ih =>
    by_cases h : v.creatorUsername = user.username ∨ v.username = user.username
    · have hb : isOwnVideo user v = true := by
        unfold isOwnVideo
        simpa using h
      simp only [Spec.ownVideos, if_pos h, List.filter_cons, hb, if_true, ih]
    · have hb : isOwnVideo user v = false := by
        unfold isOwnVideo
        simpa using h
      simp only [Spec.ownVideos, if_neg h, List.filter_cons, hb, Bool.false_eq_true,
        if_false, ih]

/-- C14: for a logged-in user and a successful response, the new `userVideos`
is the list the specification describes: a sublist of the response, in its
order, in which no video occurs more often than in the response, made of
exactly the videos whose `creatorUsername` or legacy `username` equals the
user's `username`; a video with neither field equal to it does not occur. -/
theorem my_videos_are_the_users_own (s : AppState) (user : UserProfile)
    (data : VideosResponse) (huser : s.user = some user) (hok : data.success = true) :
    (fetchUserVideos (.json data) s).userVideos = Spec.ownVideos user data.videos ∧
    List.Sublist (fetchUserVideos (.json data) s).userVideos data.videos ∧
    (∀ v : Video, v ∈ (fetchUserVideos (.json data) s).userVideos ↔
      v ∈ data.videos ∧ (v.creatorUsername = user.username ∨ v.username = user.username)) ∧
    (∀ v : Video, (fetchUserVideos (.json data) s).userVideos.count v ≤ data.videos.count v) ∧
    (∀ v : Video, v.creatorUsername ≠ user.username → v.username ≠ user.username →
      v ∉ (fetchUserVideos (.json data) s).userVideos) := by
  have hres : (fetchUserVideos (.json data) s).userVideos
      = data.videos.filter (isOwnVideo user) := by
    simp only [fetchUserVideos, huser, hok, if_true]
  have hsub : List.Sublist (data.videos.filter (isOwnVideo user)) data.videos :=
    List.filter_sublist data.videos
  have hmem : ∀ v : Video, v ∈ data.videos.filter (isOwnVideo user) ↔
      v ∈ data.videos ∧ (v.creatorUsername = user.username ∨ v.username = user.username) := by
    intro v
    rw [List.mem_filter]
    unfold isOwnVideo
    simp
  rw [hres]
  refine ⟨(ownVideos_eq_filter user data.videos).symm, hsub, hmem, fun v => hsub.count_le v,
    fun v h1 h2 hv => ?_⟩
  rcases ((hmem v).mp hv).2 with h | h
  · exact h1 h
  · exact h2 h

/-- C14 at a response of three videos, the second of somebody else and the
third with the legacy field only. -/
theorem my_videos_are_the_users_own_witness :
    (fetchUserVideos (.json ⟨true, mixedVideos⟩) (login exampleCodec (.json loginOk)
      loggedOutFeed).1).userVideos = [videoA, videoC] := by
  have h := my_videos_are_the_users_own (login exampleCodec (.json loginOk) loggedOutFeed).1
    ann ⟨true, mixedVideos⟩ rfl rfl
  rw [h.1]
  decide

end VideoApp
